import Mathlib

/-!
Verification of the GitWhisperer backend (`python-backend/ai_commit_writer.py`)
and CLI flows (`cli-tool/ai_git_cli.py`).

Strings are modelled as `List Char`.  The remote generation collaborator is
modelled as an explicit argument of type `Except Unit (List Char)`: `.ok reply`
is a successful raw text reply, `.error ()` is any exception raised by the
call.  Character-class predicates (whitespace, digits, lowercasing) are
modelled on their ASCII behaviour, which is what every concrete string in the
source exercises.
-/

/-- The whitespace characters removed by Python `str.strip()` (ASCII range). -/
def pyWS (c : Char) : Bool :=
  c == ' ' || c == '\t' || c == '\n' || c == '\r' || c == '\x0b' || c == '\x0c'

/-- Python `str.lstrip()`. -/
def lstrip (l : List Char) : List Char := l.dropWhile pyWS

/-- Python `str.rstrip()`. -/
def rstrip (l : List Char) : List Char := (l.reverse.dropWhile pyWS).reverse

/-- Python `str.strip()`. -/
def strip (l : List Char) : List Char := rstrip (lstrip l)

/-- String literal to character list. -/
def toL (s : String) : List Char := s.toList

/-- Prepend a character to the first piece of a piece list. -/
def consHead (c : Char) : List (List Char) → List (List Char)
  | [] => [[c]]
  | h :: t => (c :: h) :: t

/-- Python `str.split(sep)` for a one-character separator: splits on every
occurrence, keeping empty pieces. -/
def splitOn (sep : Char) : List Char → List (List Char)
  | [] => [[]]
  | c :: rest =>
    if c == sep then [] :: splitOn sep rest else consHead c (splitOn sep rest)

/-- Python `str.startswith(p)` for the first argument `p`. -/
def isPre : List Char → List Char → Bool
  | [], _ => true
  | _ :: _, [] => false
  | a :: as, b :: bs => a == b && isPre as bs

/-- Python `re.sub(r'^P\s*', '', l)` for a literal pattern `P` given as the
list `p`: if `l` starts with `p`, remove it together with the following
whitespace run, otherwise leave `l` unchanged. -/
def subPreWS (p l : List Char) : List Char :=
  if isPre p l then (l.drop p.length).dropWhile pyWS else l

/-- A single or double quote character. -/
def isQuote (c : Char) : Bool := c == '"' || c == '\''

/-- Remove one leading quote character, if present. -/
def dropLeadQuote : List Char → List Char
  | [] => []
  | c :: rest => if isQuote c then rest else c :: rest

/-- Remove one trailing quote character, if present. -/
def dropTailQuote (l : List Char) : List Char :=
  match l.reverse with
  | [] => l
  | c :: rest => if isQuote c then rest.reverse else l

/-- Python `re.sub(r'^["\x27]|["\x27]$', '', l)`: one leading quote character
(if present) and one trailing quote character (if present) are removed; inner
quotes are untouched. -/
def stripQuotes (l : List Char) : List Char :=
  dropTailQuote (dropLeadQuote l)

/-- Python slice `l[:i]` for a possibly negative bound `i`, as produced by
`commit_message[:max_length-3]`. -/
def pySlice (l : List Char) (i : Int) : List Char :=
  if 0 ≤ i then l.take i.toNat else l.take (l.length - (-i).toNat)

/-- ASCII lowercasing of one character, as Python `str.lower()` acts on the
ASCII range. -/
def lowerChar (c : Char) : Char :=
  if h : 65 ≤ c.toNat ∧ c.toNat ≤ 90 then
    Char.ofNatAux (c.toNat + 32) (Or.inl (by omega))
  else c

/-- Python `str.lower()`. -/
def pyLower (l : List Char) : List Char := l.map lowerChar

/-- An ASCII digit. -/
def isDigitC (c : Char) : Bool := 48 ≤ c.toNat && c.toNat ≤ 57

/-- Remove one leading period, if present. -/
def dropDot : List Char → List Char
  | '.' :: t => t
  | r => r

/-- Python `re.sub(r'^\d+\.?\s*', '', l)`: if `l` starts with at least one
digit, remove the leading digit run, then one period if present, then the
following whitespace run; otherwise leave `l` unchanged. -/
def stripOrdinal (l : List Char) : List Char :=
  match l with
  | [] => []
  | c :: _ =>
    if isDigitC c then (dropDot (l.dropWhile isDigitC)).dropWhile pyWS
    else l

/-- Result of `generate_commit_message` (the dictionary it returns). -/
structure CommitResult where
  commit_message : List Char
  confidence : ℚ
  suggestions : List (List Char)
deriving DecidableEq

/-- Result of `suggest_branch_name`. -/
structure BranchResult where
  branch_name : List Char
  alternatives : List (List Char)
deriving DecidableEq

/-- Result of `summarize_pull_request`. -/
structure PRResult where
  summary : List Char
  impact : List Char
  testing_notes : List Char
deriving DecidableEq

/-- One iteration of the numbered-list parsing loop of
`generate_alternative_messages`: strip a leading ordinal marker from the
line, trim it, and append it to the accumulator when it is non-empty and at
most 50 characters long. -/
def altStep (acc : List (List Char)) (line : List Char) : List (List Char) :=
  if strip (stripOrdinal line) ≠ [] ∧ (strip (stripOrdinal line)).length ≤ 50
  then acc ++ [strip (stripOrdinal line)] else acc

/-- The numbered-list parsing of `generate_alternative_messages`:
strip the reply, split into lines, run the loop, return the first `count`
collected suggestions (`suggestions[:count]`). -/
def parseAlternatives (reply : List Char) (count : Nat) : List (List Char) :=
  (((splitOn '\n' (strip reply)).foldl altStep [])).take count

/-- `generate_alternative_messages`: on success parse the numbered list, on
any exception return the fixed fallback list.  (The diff text and style only
shape the prompt, which is outside the parsing contract.) -/
def generate_alternative_messages (gen : Except Unit (List Char)) (count : Nat) :
    List (List Char) :=
  match gen with
  | .ok reply => parseAlternatives reply count
  | .error _ => [toL "Update files", toL "Add changes", toL "Modify code"]

/-- The quote-stripped, trimmed raw candidate of `generate_commit_message`:
`response.choices[0].message.content.strip()` followed by
`re.sub(r'^["\x27]|["\x27]$', '', ...)`. -/
def parseCommitCandidate (reply : List Char) : List Char :=
  stripQuotes (strip reply)

/-- The length guard of `generate_commit_message`:
`commit_message[:max_length-3] + "..."` when the candidate is longer than
`max_length` (a Python slice, so `max_length - 3` may be negative). -/
def truncateMessage (msg : List Char) (max_length : Nat) : List Char :=
  if max_length < msg.length then pySlice msg ((max_length : Int) - 3) ++ toL "..." else msg

/-- `generate_commit_message diff_text max_length gen altGen`: `gen` is the
outcome of the function's own completion call, `altGen` the outcome of the
completion call made inside `generate_alternative_messages`. -/
def generate_commit_message (diff_text : List Char) (max_length : Nat)
    (gen : Except Unit (List Char)) (altGen : Except Unit (List Char)) : CommitResult :=
  if strip diff_text = [] then
    { commit_message := toL "No changes detected", confidence := 0, suggestions := [] }
  else
    match gen with
    | .error _ =>
      { commit_message := toL "Update project files", confidence := 0,
        suggestions := [toL "Add new feature", toL "Fix bug", toL "Update documentation"] }
    | .ok reply =>
      { commit_message := truncateMessage (parseCommitCandidate reply) max_length,
        confidence := 9/10,
        suggestions := generate_alternative_messages altGen 3 }

/-- A character kept by the branch clean-up substitution (the complement of
the character class letters, digits, slash, hyphen), described by code point:
`A`-`Z`, `a`-`z`, `0`-`9`, slash (47) and hyphen (45). -/
def keepBranchChar (c : Char) : Bool :=
  (65 ≤ c.toNat && c.toNat ≤ 90) || (97 ≤ c.toNat && c.toNat ≤ 122) ||
  (48 ≤ c.toNat && c.toNat ≤ 57) || c.toNat == 47 || c.toNat == 45

/-- Branch-name clean-up: lowercase, then replace every character that is not
a letter, digit, slash or hyphen by one hyphen (the `re.sub` on line 249). -/
def normalizeBranch (v : List Char) : List Char :=
  (v.map lowerChar).map (fun c => if keepBranchChar c then c else '-')

/-- The reply-scanning loop of `suggest_branch_name`: the check is on the
lowercased line, the extraction `re.sub(r'^primary:\s*', ...)` runs on the
original line. -/
def branchFold (lines : List (List Char)) : List Char × List (List Char) :=
  lines.foldl
    (fun st line =>
      if isPre (toL "primary:") (pyLower line) then
        (strip (subPreWS (toL "primary:") line), st.2)
      else if isPre (toL "alternatives:") (pyLower line) then
        (st.1, ((splitOn ',' (strip (subPreWS (toL "alternatives:") line))).map strip).filter
          (fun a => !a.isEmpty))
      else st)
    (toL "feature/new-feature", [toL "feature/alt1", toL "feature/alt2"])

/-- `suggest_branch_name diff_text gen` (the context argument only shapes the
prompt). -/
def suggest_branch_name (diff_text : List Char) (gen : Except Unit (List Char)) :
    BranchResult :=
  if strip diff_text = [] then
    { branch_name := toL "feature/new-changes",
      alternatives := [toL "feature/updates", toL "feature/modifications"] }
  else
    match gen with
    | .error _ =>
      { branch_name := toL "feature/new-changes",
        alternatives := [toL "feature/updates", toL "feature/modifications"] }
    | .ok raw =>
      let st := branchFold (splitOn '\n' (strip raw))
      { branch_name := normalizeBranch st.1,
        alternatives := (st.2.map normalizeBranch).take 3 }

/-- One iteration of the structured-reply scanning loop of
`summarize_pull_request` (the if/elif chain over one line). -/
def prStep (st : PRResult) (line : List Char) : PRResult :=
  if isPre (toL "Summary:") line then
    { st with summary := strip (subPreWS (toL "Summary:") line) }
  else if isPre (toL "Impact:") line then
    { st with impact := strip (subPreWS (toL "Impact:") line) }
  else if isPre (toL "Testing:") line then
    { st with testing_notes := strip (subPreWS (toL "Testing:") line) }
  else st

/-- The structured-reply scanning loop of `summarize_pull_request`, started
from the three fixed defaults. -/
def prFold (lines : List (List Char)) : PRResult :=
  lines.foldl prStep
    { summary := toL "Changes made to the codebase", impact := toL "Medium",
      testing_notes := toL "Standard testing procedures apply" }

/-- `summarize_pull_request branch_name diff_text gen` (the branch name only
shapes the prompt). -/
def summarize_pull_request (_branch_name diff_text : List Char)
    (gen : Except Unit (List Char)) : PRResult :=
  if strip diff_text = [] then
    { summary := toL "No changes to summarize", impact := toL "Minimal",
      testing_notes := toL "No specific testing required" }
  else
    match gen with
    | .error _ =>
      { summary := toL "Pull request contains code changes", impact := toL "Medium",
        testing_notes := toL "Review changes before merging" }
    | .ok raw => prFold (splitOn '\n' (strip raw))

/-- Outcome of one pass through a user-decision section of a commit flow:
the message handed to `commit_changes` (if it was invoked at all) and whether
the empty-replacement error was reported. -/
structure FlowResult where
  committed : Option (List Char)
  errorReported : Bool
deriving DecidableEq

/-- The user-decision section of `interactive_commit_flow` in
`cli-tool/ai_git_cli.py`: the choice is lowercased and trimmed; `y` commits
the generated message, `e` reads a replacement, trims it, refuses it when
empty, `q` or anything else aborts. -/
def interactive_commit_decision (choice custom genMsg : List Char) : FlowResult :=
  if strip (pyLower choice) = toL "y" then { committed := some genMsg, errorReported := false }
  else if strip (pyLower choice) = toL "e" then
    if strip custom ≠ [] then { committed := some (strip custom), errorReported := false }
    else { committed := none, errorReported := true }
  else if strip (pyLower choice) = toL "q" then { committed := none, errorReported := false }
  else { committed := none, errorReported := false }

/-- The user-decision section of `run_cli` in
`python-backend/ai_commit_writer.py`: the choice is lowercased (not trimmed);
`y` commits the generated message, `edit` reads a replacement and commits it
without trimming or rejecting the empty string, anything else cancels. -/
def run_cli_decision (use_message custom genMsg : List Char) : FlowResult :=
  if pyLower use_message = toL "y" then { committed := some genMsg, errorReported := false }
  else if pyLower use_message = toL "edit" then { committed := some custom, errorReported := false }
  else { committed := none, errorReported := false }

/-! Helper lemmas about the string primitives. -/

theorem dropWhile_idem (p : Char → Bool) (l : List Char) :
    (l.dropWhile p).dropWhile p = l.dropWhile p := by
  induction l with
  | nil => rfl
  | cons c l ih =>
    by_cases hp : p c = true
    · simp [List.dropWhile_cons, hp, ih]
    · simp [List.dropWhile_cons, hp]

theorem strip_dropWhile (l : List Char) : strip (l.dropWhile pyWS) = strip l := by
  unfold strip lstrip
  rw [dropWhile_idem]

theorem lstrip_eq_of_strip_eq {l : List Char} (h : strip l = l) : lstrip l = l := by
  have h1 : (strip l).length ≤ (lstrip l).length := by
    unfold strip rstrip
    have := ((lstrip l).reverse.dropWhile_suffix pyWS).length_le
    simpa using this
  have h2 : (lstrip l).length ≤ l.length := (l.dropWhile_suffix pyWS).length_le
  have h3 : (lstrip l).length = l.length := by rw [h] at h1; omega
  exact (l.dropWhile_suffix pyWS).eq_of_length h3

theorem rstrip_eq_of_strip_eq {l : List Char} (h : strip l = l) : rstrip l = l := by
  have h1 := lstrip_eq_of_strip_eq h
  unfold strip at h
  rw [h1] at h
  exact h

theorem last_not_ws_of_rstrip_eq {t : List Char} {c : Char} {r : List Char}
    (ht : rstrip t = t) (hrev : t.reverse = c :: r) : pyWS c = false := by
  have h2 : (c :: r).dropWhile pyWS = c :: r := by
    have h3 := congrArg List.reverse ht
    rw [rstrip, List.reverse_reverse] at h3
    rw [hrev] at h3
    exact h3
  by_contra hcc
  have hc : pyWS c = true := by
    cases hpc : pyWS c with
    | false => exact absurd hpc hcc
    | true => rfl
  rw [List.dropWhile_cons, if_pos hc] at h2
  have := (r.dropWhile_suffix pyWS).length_le
  have := congrArg List.length h2
  simp at this
  omega

theorem dropWhile_append_all (p : Char → Bool) (a b : List Char)
    (ha : ∀ c ∈ a, p c = true) : (a ++ b).dropWhile p = b.dropWhile p := by
  induction a with
  | nil => rfl
  | cons c a ih =>
    rw [List.cons_append, List.dropWhile_cons, if_pos (ha c (by simp))]
    exact ih (fun x hx => ha x (by simp [hx]))

theorem rstrip_append_ws (x t w : List Char) (ht : rstrip t = t) (hne : t ≠ [])
    (hw : ∀ c ∈ w, pyWS c = true) : rstrip (x ++ (t ++ w)) = x ++ t := by
  obtain ⟨c, r, hrev⟩ : ∃ c r, t.reverse = c :: r := by
    cases htr : t.reverse with
    | nil =>
      exact absurd (by simpa using congrArg List.reverse htr) hne
    | cons c r => exact ⟨c, r, rfl⟩
  have hc : pyWS c = false := last_not_ws_of_rstrip_eq ht hrev
  have ht2 : t = r.reverse ++ [c] := by
    have := congrArg List.reverse hrev
    simpa using this
  unfold rstrip
  have hrw : (x ++ (t ++ w)).reverse = w.reverse ++ (c :: (r ++ x.reverse)) := by
    simp [List.reverse_append, hrev]
  rw [hrw, dropWhile_append_all pyWS w.reverse _
    (fun d hd => hw d (List.mem_reverse.mp hd))]
  rw [List.dropWhile_cons, if_neg (by simp [hc])]
  simp [ht2]

theorem lstrip_cons_not_ws {c : Char} (l : List Char) (h : pyWS c = false) :
    lstrip (c :: l) = c :: l := by
  unfold lstrip
  rw [List.dropWhile_cons, if_neg (by simp [h])]

theorem strip_space_cons (s : List Char) (h : strip s = s) : strip (' ' :: s) = s := by
  have h1 : (' ' :: s).dropWhile pyWS = s.dropWhile pyWS := by
    rw [List.dropWhile_cons, if_pos (by decide)]
  unfold strip lstrip
  rw [h1]
  have h2 := lstrip_eq_of_strip_eq h
  unfold lstrip at h2
  rw [h2]
  exact rstrip_eq_of_strip_eq h

/-! Characterization of the structured-reply scanning loop: a field holds the
trimmed text after the prefix of the last line bearing that prefix, or the
given default when no line bears it. -/

/-- Declarative reading of one field of the scanning loop: the value comes
from the last line of `lines` that starts with `p` (everything after the
prefix, trimmed), or is `dflt` when no line starts with `p`. -/
def prFieldSpec (p dflt : List Char) (lines : List (List Char)) : List Char :=
  match lines.reverse.find? (fun l => isPre p l) with
  | some l => strip (l.drop p.length)
  | none => dflt

theorem isPre_head_eq {a b : Char} {as bs l : List Char}
    (h1 : isPre (a :: as) l = true) (h2 : isPre (b :: bs) l = true) : a = b := by
  cases l with
  | nil => simp [isPre] at h1
  | cons c cs =>
    simp only [isPre, Bool.and_eq_true, beq_iff_eq] at h1 h2
    rw [h1.1, h2.1]

theorem isPre_false_of_ne {a b : Char} (hab : a ≠ b) {as bs l : List Char}
    (h : isPre (a :: as) l = true) : isPre (b :: bs) l = false := by
  by_contra hb
  have hb' : isPre (b :: bs) l = true := by
    cases hx : isPre (b :: bs) l with
    | false => exact absurd hx hb
    | true => rfl
  exact hab (isPre_head_eq h hb')

theorem strip_subPreWS_of_isPre {p l : List Char} (h : isPre p l = true) :
    strip (subPreWS p l) = strip (l.drop p.length) := by
  unfold subPreWS
  rw [if_pos h, strip_dropWhile]

theorem prStep_summary (st : PRResult) (line : List Char) :
    (prStep st line).summary =
      if isPre (toL "Summary:") line then strip (subPreWS (toL "Summary:") line)
      else st.summary := by
  unfold prStep
  by_cases h1 : isPre (toL "Summary:") line = true
  · rw [if_pos h1, if_pos h1]
  · rw [if_neg h1, if_neg h1]
    by_cases h2 : isPre (toL "Impact:") line = true
    · rw [if_pos h2]
    · rw [if_neg h2]
      by_cases h3 : isPre (toL "Testing:") line = true
      · rw [if_pos h3]
      · rw [if_neg h3]

theorem prStep_impact (st : PRResult) (line : List Char) :
    (prStep st line).impact =
      if isPre (toL "Impact:") line then strip (subPreWS (toL "Impact:") line)
      else st.impact := by
  unfold prStep
  by_cases h1 : isPre (toL "Summary:") line = true
  · rw [if_pos h1]
    rw [show isPre (toL "Impact:") line = false from
      isPre_false_of_ne (by decide) h1, if_neg (by simp)]
  · rw [if_neg h1]
    by_cases h2 : isPre (toL "Impact:") line = true
    · rw [if_pos h2, if_pos h2]
    · rw [if_neg h2, if_neg h2]
      by_cases h3 : isPre (toL "Testing:") line = true
      · rw [if_pos h3]
      · rw [if_neg h3]

theorem prStep_testing (st : PRResult) (line : List Char) :
    (prStep st line).testing_notes =
      if isPre (toL "Testing:") line then strip (subPreWS (toL "Testing:") line)
      else st.testing_notes := by
  unfold prStep
  by_cases h1 : isPre (toL "Summary:") line = true
  · rw [if_pos h1]
    rw [show isPre (toL "Testing:") line = false from
      isPre_false_of_ne (by decide) h1, if_neg (by simp)]
  · rw [if_neg h1]
    by_cases h2 : isPre (toL "Impact:") line = true
    · rw [if_pos h2]
      rw [show isPre (toL "Testing:") line = false from
        isPre_false_of_ne (by decide) h2, if_neg (by simp)]
    · rw [if_neg h2]
      by_cases h3 : isPre (toL "Testing:") line = true
      · rw [if_pos h3, if_pos h3]
      · rw [if_neg h3, if_neg h3]

theorem prFieldSpec_cons (p d l : List Char) (ls : List (List Char)) :
    prFieldSpec p d (l :: ls) =
      prFieldSpec p (if isPre p l then strip (subPreWS p l) else d) ls := by
  unfold prFieldSpec
  rw [List.reverse_cons, List.find?_append]
  cases hf : ls.reverse.find? (fun x => isPre p x) with
  | some x => rw [Option.or_some]
  | none =>
    rw [Option.none_or]
    by_cases h : isPre p l = true
    · rw [List.find?_cons_of_pos _ h, if_pos h, strip_subPreWS_of_isPre h]
    · rw [List.find?_cons_of_neg _ (by simp [h]), if_neg h, List.find?_nil]

theorem foldl_prStep_eq (lines : List (List Char)) (st : PRResult) :
    lines.foldl prStep st =
      { summary := prFieldSpec (toL "Summary:") st.summary lines,
        impact := prFieldSpec (toL "Impact:") st.impact lines,
        testing_notes := prFieldSpec (toL "Testing:") st.testing_notes lines } := by
  induction lines generalizing st with
  | nil => simp [prFieldSpec]
  | cons l ls ih =>
    rw [List.foldl_cons, ih]
    rw [prFieldSpec_cons (toL "Summary:"), prFieldSpec_cons (toL "Impact:"),
      prFieldSpec_cons (toL "Testing:")]
    rw [prStep_summary, prStep_impact, prStep_testing]

/-! Splitting lemmas. -/

theorem dropDot_dot (t : List Char) : dropDot ('.' :: t) = t := rfl

theorem dropDot_of_ne {r0 : Char} (rt : List Char) (h : r0 ≠ '.') :
    dropDot (r0 :: rt) = r0 :: rt := by
  unfold dropDot
  split
  · rename_i t heq
    injection heq with h1 _
    exact absurd h1 h
  · rfl

theorem splitOn_ne_nil (sep : Char) (l : List Char) : splitOn sep l ≠ [] := by
  cases l with
  | nil => simp [splitOn]
  | cons c rest =>
    simp only [splitOn]
    by_cases hc : (c == sep) = true
    · rw [if_pos hc]; simp
    · rw [if_neg hc]
      cases splitOn sep rest with
      | nil => simp [consHead]
      | cons h t => simp [consHead]

theorem splitOn_no_sep (sep : Char) (a : List Char) (ha : sep ∉ a) :
    splitOn sep a = [a] := by
  induction a with
  | nil => rfl
  | cons c a ih =>
    have hc : c ≠ sep := fun h => ha (by simp [h])
    simp only [splitOn]
    rw [if_neg (by simp [hc]), ih (fun h => ha (by simp [h]))]
    rfl

theorem splitOn_append_sep (sep : Char) (a b : List Char) (ha : sep ∉ a) :
    splitOn sep (a ++ sep :: b) = a :: splitOn sep b := by
  induction a with
  | nil =>
    rw [List.nil_append]
    simp only [splitOn]
    rw [if_pos (by simp)]
  | cons c a ih =>
    have hc : c ≠ sep := fun h => ha (by simp [h])
    rw [List.cons_append]
    simp only [splitOn]
    rw [if_neg (by simp [hc]), ih (fun h => ha (by simp [h]))]
    rfl

/-! The alternatives loop collects exactly the trimmed, marker-stripped lines
that are non-empty and at most 50 characters long, in source order. -/

theorem foldl_altStep (lines : List (List Char)) (acc : List (List Char)) :
    lines.foldl altStep acc =
      acc ++ ((lines.map fun l => strip (stripOrdinal l)).filter
        fun l => decide (l ≠ [] ∧ l.length ≤ 50)) := by
  induction lines generalizing acc with
  | nil => simp
  | cons l ls ih =>
    rw [List.foldl_cons, ih]
    unfold altStep
    by_cases h : strip (stripOrdinal l) ≠ [] ∧ (strip (stripOrdinal l)).length ≤ 50
    · rw [if_pos h]
      simp [List.filter_cons, h]
    · rw [if_neg h]
      simp [List.filter_cons, h]

/-- The prefix removed by `stripOrdinal` always consists of a (possibly
empty) digit run, an optional period, and a (possibly empty) whitespace run;
when the line does not start with a digit nothing at all is removed. -/
theorem stripOrdinal_shape (l : List Char) :
    ∃ ds dot ws, l = ds ++ (dot ++ (ws ++ stripOrdinal l))
      ∧ (∀ c ∈ ds, isDigitC c = true) ∧ (dot = [] ∨ dot = ['.'])
      ∧ (∀ c ∈ ws, pyWS c = true)
      ∧ (ds = [] → stripOrdinal l = l) := by
  cases l with
  | nil => exact ⟨[], [], [], by simp [stripOrdinal], by simp, Or.inl rfl, by simp, fun _ => rfl⟩
  | cons c l0 =>
    by_cases hd : isDigitC c = true
    · have hso : stripOrdinal (c :: l0) =
          (dropDot ((c :: l0).dropWhile isDigitC)).dropWhile pyWS := by
        simp only [stripOrdinal]
        rw [if_pos hd]
      have hsplit : List.takeWhile isDigitC (c :: l0) ++ List.dropWhile isDigitC (c :: l0)
          = c :: l0 := List.takeWhile_append_dropWhile isDigitC (c :: l0)
      have hts : (c :: l0).takeWhile isDigitC = c :: l0.takeWhile isDigitC := by
        rw [List.takeWhile_cons, if_pos hd]
      have htsne : (c :: l0).takeWhile isDigitC ≠ [] := by rw [hts]; simp
      refine ⟨(c :: l0).takeWhile isDigitC, ?_⟩
      cases hr : (c :: l0).dropWhile isDigitC with
      | nil =>
        refine ⟨[], [], ?_, ?_, Or.inl rfl, by simp, fun hds => absurd hds htsne⟩
        · rw [hso, hr]
          calc c :: l0 = List.takeWhile isDigitC (c :: l0)
                ++ List.dropWhile isDigitC (c :: l0) := hsplit.symm
          _ = _ := by rw [hr]; rfl
        · intro x hx; exact List.mem_takeWhile_imp hx
      | cons r0 rt =>
        by_cases hdot : r0 = '.'
        · subst hdot
          refine ⟨['.'], rt.takeWhile pyWS, ?_, ?_, Or.inr rfl, ?_, fun hds => absurd hds htsne⟩
          · rw [hso, hr, dropDot_dot]
            have hws : List.takeWhile pyWS rt ++ List.dropWhile pyWS rt = rt :=
              List.takeWhile_append_dropWhile pyWS rt
            calc c :: l0 = (c :: l0).takeWhile isDigitC ++ ('.' :: rt) := by
                  rw [← hr, hsplit]
            _ = _ := by rw [← hws]; simp
          · intro x hx; exact List.mem_takeWhile_imp hx
          · intro x hx; exact List.mem_takeWhile_imp hx
        · refine ⟨[], (r0 :: rt).takeWhile pyWS, ?_, ?_, Or.inl rfl, ?_, fun hds => absurd hds htsne⟩
          · rw [hso, hr, dropDot_of_ne rt hdot]
            have hws : List.takeWhile pyWS (r0 :: rt) ++ List.dropWhile pyWS (r0 :: rt)
                = r0 :: rt := List.takeWhile_append_dropWhile pyWS (r0 :: rt)
            calc c :: l0 = (c :: l0).takeWhile isDigitC ++ (r0 :: rt) := by
                  rw [← hr, hsplit]
            _ = _ := by rw [← hws]; simp
          · intro x hx; exact List.mem_takeWhile_imp hx
          · intro x hx; exact List.mem_takeWhile_imp hx
    · have hso : stripOrdinal (c :: l0) = c :: l0 := by
        simp only [stripOrdinal]
        rw [if_neg hd]
      exact ⟨[], [], [], by rw [hso]; simp, by simp, Or.inl rfl, by simp, fun _ => hso⟩

/-! Branch-name charset lemmas. -/

/-- A character in the lowercase charset `a`-`z`, `0`-`9`, slash, hyphen. -/
def isLowerBranchChar (c : Char) : Bool :=
  (97 ≤ c.toNat && c.toNat ≤ 122) || (48 ≤ c.toNat && c.toNat ≤ 57) ||
  c.toNat == 47 || c.toNat == 45

theorem lowerChar_toNat (c : Char) :
    (lowerChar c).toNat =
      if 65 ≤ c.toNat ∧ c.toNat ≤ 90 then c.toNat + 32 else c.toNat := by
  unfold lowerChar
  rw [apply_dite Char.toNat]
  split
  · rfl
  · rfl

theorem lowerChar_not_upper (c : Char) :
    ¬(65 ≤ (lowerChar c).toNat ∧ (lowerChar c).toNat ≤ 90) := by
  rw [lowerChar_toNat]
  split <;> omega

theorem normalizeBranch_all (v : List Char) :
    (normalizeBranch v).all isLowerBranchChar = true := by
  rw [List.all_eq_true]
  intro x hx
  unfold normalizeBranch at hx
  rw [List.map_map, List.mem_map] at hx
  obtain ⟨c, _, rfl⟩ := hx
  simp only [Function.comp]
  by_cases h : keepBranchChar (lowerChar c) = true
  · rw [if_pos h]
    have hnu := lowerChar_not_upper c
    unfold keepBranchChar at h
    unfold isLowerBranchChar
    simp only [Bool.or_eq_true, Bool.and_eq_true, decide_eq_true_eq, Nat.beq_eq_true_eq] at h ⊢
    omega
  · rw [if_neg h]
    decide

/-! Quote-stripping lemmas. -/

theorem stripQuotes_wrap (q : Char) (t : List Char) (hq : isQuote q = true) :
    stripQuotes (q :: (t ++ [q])) = t := by
  have h1 : dropLeadQuote (q :: (t ++ [q])) = t ++ [q] := by
    simp only [dropLeadQuote]
    rw [if_pos hq]
  have h2 : dropTailQuote (t ++ [q]) = t := by
    unfold dropTailQuote
    rw [show (t ++ [q]).reverse = q :: t.reverse by simp]
    simp [hq]
  unfold stripQuotes
  rw [h1, h2]

theorem strip_quote_wrap (q : Char) (t : List Char) (hq : pyWS q = false) :
    strip (q :: (t ++ [q])) = q :: (t ++ [q]) := by
  have hl : lstrip (q :: (t ++ [q])) = q :: (t ++ [q]) := lstrip_cons_not_ws _ hq
  have hr : rstrip ((q :: t) ++ ([q] ++ [])) = (q :: t) ++ [q] :=
    rstrip_append_ws (q :: t) [q] [] (by unfold rstrip; simp [List.dropWhile_cons, hq])
      (by simp) (by simp)
  unfold strip
  rw [hl]
  calc rstrip (q :: (t ++ [q])) = rstrip ((q :: t) ++ ([q] ++ [])) := by simp
  _ = (q :: t) ++ [q] := hr
  _ = q :: (t ++ [q]) := by simp

/-! Reduction lemmas for the three public operations. -/

theorem generate_commit_message_ok (diff : List Char) (L : Nat) (reply : List Char)
    (altGen : Except Unit (List Char)) (hd : strip diff ≠ []) :
    generate_commit_message diff L (.ok reply) altGen =
      { commit_message := truncateMessage (parseCommitCandidate reply) L,
        confidence := 9/10, suggestions := generate_alternative_messages altGen 3 } := by
  unfold generate_commit_message
  rw [if_neg hd]

theorem suggest_branch_name_ok (diff raw : List Char) (hd : strip diff ≠ []) :
    suggest_branch_name diff (.ok raw) =
      { branch_name := normalizeBranch (branchFold (splitOn '\n' (strip raw))).1,
        alternatives :=
          (((branchFold (splitOn '\n' (strip raw))).2.map normalizeBranch)).take 3 } := by
  unfold suggest_branch_name
  rw [if_neg hd]

theorem summarize_pull_request_ok (bn diff raw : List Char) (hd : strip diff ≠ []) :
    summarize_pull_request bn diff (.ok raw) = prFold (splitOn '\n' (strip raw)) := by
  unfold summarize_pull_request
  rw [if_neg hd]

/-! Claim theorems. -/

/-- C5: for each of the three request kinds, an exception in the generation
call produces exactly the literal kind-specific fallback object, wholesale;
in this total model the failure cannot propagate as an exception. -/
theorem c5_fallback_on_error :
    (∀ (diff : List Char) (L : Nat) (altGen : Except Unit (List Char)),
      strip diff ≠ [] →
      generate_commit_message diff L (.error ()) altGen =
        { commit_message := toL "Update project files", confidence := 0,
          suggestions := [toL "Add new feature", toL "Fix bug", toL "Update documentation"] })
    ∧ (∀ diff : List Char, strip diff ≠ [] →
      suggest_branch_name diff (.error ()) =
        { branch_name := toL "feature/new-changes",
          alternatives := [toL "feature/updates", toL "feature/modifications"] })
    ∧ (∀ bn diff : List Char, strip diff ≠ [] →
      summarize_pull_request bn diff (.error ()) =
        { summary := toL "Pull request contains code changes", impact := toL "Medium",
          testing_notes := toL "Review changes before merging" }) := by
  refine ⟨?_, ?_, ?_⟩
  · intro diff L altGen hd
    unfold generate_commit_message
    rw [if_neg hd]
  · intro diff hd
    unfold suggest_branch_name
    rw [if_neg hd]
  · intro bn diff hd
    unfold summarize_pull_request
    rw [if_neg hd]

/-- C5 witness at a concrete non-blank diff. -/
theorem c5_fallback_on_error_witness :
    generate_commit_message (toL "x") 50 (.error ()) (.ok []) =
      { commit_message := toL "Update project files", confidence := 0,
        suggestions := [toL "Add new feature", toL "Fix bug", toL "Update documentation"] }
    ∧ suggest_branch_name (toL "x") (.error ()) =
      { branch_name := toL "feature/new-changes",
        alternatives := [toL "feature/updates", toL "feature/modifications"] }
    ∧ summarize_pull_request (toL "b") (toL "x") (.error ()) =
      { summary := toL "Pull request contains code changes", impact := toL "Medium",
        testing_notes := toL "Review changes before merging" } :=
  ⟨c5_fallback_on_error.1 (toL "x") 50 (.ok []) (by decide),
   c5_fallback_on_error.2.1 (toL "x") (by decide),
   c5_fallback_on_error.2.2 (toL "b") (toL "x") (by decide)⟩

/-- C6: an empty or whitespace-only diff makes each of the three operations
return its fixed nothing-to-do result; the result does not depend on the
generation argument, so the collaborator is never consulted. -/
theorem c6_empty_diff :
    ∀ diff : List Char, strip diff = [] →
      (∀ (L : Nat) (gen altGen : Except Unit (List Char)),
        generate_commit_message diff L gen altGen =
          { commit_message := toL "No changes detected", confidence := 0, suggestions := [] })
      ∧ (∀ gen : Except Unit (List Char), suggest_branch_name diff gen =
          { branch_name := toL "feature/new-changes",
            alternatives := [toL "feature/updates", toL "feature/modifications"] })
      ∧ (∀ (bn : List Char) (gen : Except Unit (List Char)),
          summarize_pull_request bn diff gen =
            { summary := toL "No changes to summarize", impact := toL "Minimal",
              testing_notes := toL "No specific testing required" }) := by
  intro diff h
  refine ⟨?_, ?_, ?_⟩
  · intro L gen altGen
    unfold generate_commit_message
    rw [if_pos h]
  · intro gen
    unfold suggest_branch_name
    rw [if_pos h]
  · intro bn gen
    unfold summarize_pull_request
    rw [if_pos h]

/-- C6 witness at a whitespace-only diff and successful generation outcomes:
the results are the fixed nothing-to-do objects regardless of the outcome. -/
theorem c6_empty_diff_witness :
    strip (toL " \n ") = []
    ∧ generate_commit_message (toL " \n ") 50 (.ok (toL "Fix bug")) (.ok (toL "1. A")) =
        { commit_message := toL "No changes detected", confidence := 0, suggestions := [] }
    ∧ suggest_branch_name (toL " \n ") (.ok (toL "Primary: x")) =
        { branch_name := toL "feature/new-changes",
          alternatives := [toL "feature/updates", toL "feature/modifications"] }
    ∧ summarize_pull_request (toL "b") (toL " \n ") (.ok (toL "Summary: s")) =
        { summary := toL "No changes to summarize", impact := toL "Minimal",
          testing_notes := toL "No specific testing required" } :=
  ⟨by decide,
   (c6_empty_diff (toL " \n ") (by decide)).1 50 (.ok (toL "Fix bug")) (.ok (toL "1. A")),
   (c6_empty_diff (toL " \n ") (by decide)).2.1 (.ok (toL "Primary: x")),
   (c6_empty_diff (toL " \n ") (by decide)).2.2 (toL "b") (.ok (toL "Summary: s"))⟩

/-- C7: the commit-message candidate parsing trims whitespace and removes
exactly the outermost wrapping quote characters, leaving inner quotes
untouched: a reply wrapped in double or single quotes loses only the two
outermost quotes, the literal reply `"Fix bug"` (with double quotes) parses
to `Fix bug`, and the reply `Fix "quoted" bug` parses unchanged. -/
theorem c7_quote_stripping :
    (∀ t : List Char, parseCommitCandidate ('"' :: (t ++ ['"'])) = t)
    ∧ (∀ t : List Char, parseCommitCandidate ('\'' :: (t ++ ['\''])) = t)
    ∧ parseCommitCandidate (toL "\"Fix bug\"") = toL "Fix bug"
    ∧ parseCommitCandidate (toL "Fix \"quoted\" bug") = toL "Fix \"quoted\" bug" := by
  refine ⟨?_, ?_, by decide, by decide⟩
  · intro t
    unfold parseCommitCandidate
    rw [strip_quote_wrap '"' t (by decide), stripQuotes_wrap '"' t (by decide)]
  · intro t
    unfold parseCommitCandidate
    rw [strip_quote_wrap '\'' t (by decide), stripQuotes_wrap '\'' t (by decide)]

/-- C3 (code behaviour at the failing input): the reply line
`Primary: user-auth` — exactly the casing the function's own prompt requests —
passes the case-insensitive check, but the case-sensitive extraction leaves
the line untouched, so the returned branch name is the whole normalized line
`primary--user-auth` instead of `user-auth`. -/
theorem c3_case_mismatch_eval :
    (suggest_branch_name (toL "d") (.ok (toL "Primary: user-auth"))).branch_name
      = toL "primary--user-auth"
    ∧ toL "primary--user-auth" ≠ toL "user-auth"
    ∧ (suggest_branch_name (toL "d") (.ok (toL "primary: user-auth"))).branch_name
      = toL "user-auth" := by
  refine ⟨by decide, by decide, by decide⟩

/-- C1 counterexample: the claim fails as stated.  With `max_length = 2` and
a successful reply `abcdef`, the negative Python slice produces `abcde...`
(8 characters, exceeding 2); the empty-diff result `No changes detected`
(19 characters) and the exception fallback `Update project files`
(20 characters) also ignore `max_length`. -/
theorem c1_counterexample :
    ¬((generate_commit_message (toL "x") 2 (.ok (toL "abcdef")) (.ok [])).commit_message.length ≤ 2)
    ∧ (generate_commit_message (toL "x") 2 (.ok (toL "abcdef")) (.ok [])).commit_message
        = toL "abcde..."
    ∧ ¬((generate_commit_message (toL "") 5 (.ok (toL "abcdef")) (.ok [])).commit_message.length ≤ 5)
    ∧ ¬((generate_commit_message (toL "x") 5 (.error ()) (.ok [])).commit_message.length ≤ 5) := by
  refine ⟨by decide, by decide, by decide, by decide⟩

/-- C1 amended: for a non-blank diff, a successful generation reply and
`max_length = L ≥ 3`, the returned commit message has length at most `L`,
and whenever the quote-stripped candidate is longer than `L` the message is
the candidate's first `L - 3` characters followed by `...`. -/
theorem c1_truncation_amended :
    ∀ (diff : List Char) (L : Nat) (reply : List Char) (altGen : Except Unit (List Char)),
      strip diff ≠ [] → 3 ≤ L →
      (generate_commit_message diff L (.ok reply) altGen).commit_message.length ≤ L
      ∧ (L < (parseCommitCandidate reply).length →
        (generate_commit_message diff L (.ok reply) altGen).commit_message
          = (parseCommitCandidate reply).take (L - 3) ++ toL "...") := by
  intro diff L reply altGen hd hL
  rw [generate_commit_message_ok diff L reply altGen hd]
  unfold truncateMessage
  by_cases h : L < (parseCommitCandidate reply).length
  · rw [if_pos h]
    have hsl : pySlice (parseCommitCandidate reply) ((L : Int) - 3)
        = (parseCommitCandidate reply).take (L - 3) := by
      unfold pySlice
      rw [if_pos (by omega : (0 : Int) ≤ (L : Int) - 3)]
      congr 1
      omega
    refine ⟨?_, fun _ => ?_⟩
    · show (pySlice (parseCommitCandidate reply) ((L : Int) - 3) ++ toL "...").length ≤ L
      rw [hsl, List.length_append, List.length_take,
        (show (toL "...").length = 3 from rfl)]
      omega
    · show pySlice (parseCommitCandidate reply) ((L : Int) - 3) ++ toL "..."
        = (parseCommitCandidate reply).take (L - 3) ++ toL "..."
      rw [hsl]
  · rw [if_neg h]
    refine ⟨?_, fun hlt => absurd hlt h⟩
    show (parseCommitCandidate reply).length ≤ L
    omega

/-- C1 amended witness: a 27-character candidate with `L = 10` is cut to its
first 7 characters plus the ellipsis. -/
theorem c1_truncation_amended_witness :
    (generate_commit_message (toL "x") 10 (.ok (toL "Fix parser bug in tokenizer"))
      (.ok [])).commit_message.length ≤ 10
    ∧ (10 < (parseCommitCandidate (toL "Fix parser bug in tokenizer")).length →
      (generate_commit_message (toL "x") 10 (.ok (toL "Fix parser bug in tokenizer"))
        (.ok [])).commit_message
        = (parseCommitCandidate (toL "Fix parser bug in tokenizer")).take (10 - 3) ++ toL "...") :=
  c1_truncation_amended (toL "x") 10 (toL "Fix parser bug in tokenizer") (.ok [])
    (by decide) (by omega)

/-- C2 counterexample: the claim fails as stated — when the same prefix
occurs on several lines the last matching line wins, not the first: the
reply `Summary: A` newline `Summary: B` parses to summary `B`, not `A`. -/
theorem c2_counterexample :
    (summarize_pull_request (toL "b") (toL "d")
      (.ok (toL "Summary: A\nSummary: B"))).summary = toL "B"
    ∧ toL "B" ≠ toL "A" := by
  refine ⟨by decide, by decide⟩

/-- C2 amended: each of the three fields is captured from lines bearing the
exact case-sensitive prefixes `Summary:` / `Impact:` / `Testing:`, the value
being everything after the prefix, trimmed; when several lines bear the same
prefix the last matching line determines the field (later lines overwrite
earlier ones); a field with no matching line keeps its fixed default. -/
theorem c2_last_match_wins :
    ∀ bn diff raw : List Char, strip diff ≠ [] →
      summarize_pull_request bn diff (.ok raw) =
        { summary := prFieldSpec (toL "Summary:") (toL "Changes made to the codebase")
            (splitOn '\n' (strip raw)),
          impact := prFieldSpec (toL "Impact:") (toL "Medium")
            (splitOn '\n' (strip raw)),
          testing_notes := prFieldSpec (toL "Testing:")
            (toL "Standard testing procedures apply") (splitOn '\n' (strip raw)) } := by
  intro bn diff raw hd
  rw [summarize_pull_request_ok bn diff raw hd]
  exact foldl_prStep_eq _ _

/-- C2 amended witness: duplicated `Impact:` lines resolve to the last one,
and the two fields with no matching line keep their defaults. -/
theorem c2_last_match_wins_witness :
    summarize_pull_request (toL "b") (toL "d") (.ok (toL "Impact: Low\nImpact: High")) =
      { summary := prFieldSpec (toL "Summary:") (toL "Changes made to the codebase")
          (splitOn '\n' (strip (toL "Impact: Low\nImpact: High"))),
        impact := prFieldSpec (toL "Impact:") (toL "Medium")
          (splitOn '\n' (strip (toL "Impact: Low\nImpact: High"))),
        testing_notes := prFieldSpec (toL "Testing:")
          (toL "Standard testing procedures apply")
          (splitOn '\n' (strip (toL "Impact: Low\nImpact: High"))) } :=
  c2_last_match_wins (toL "b") (toL "d") (toL "Impact: Low\nImpact: High") (by decide)

/-- C8: branch-name normalization lowercases and replaces every character
outside the lowercase charset by one hyphen, so every character of every
normalized value — and of every string in any returned result, fallbacks
included — lies in the charset `a`-`z`, `0`-`9`, slash, hyphen; in particular
`Feature/New Auth!!` normalizes to `feature/new-auth--`. -/
theorem c8_branch_charset :
    (∀ v : List Char, (normalizeBranch v).all isLowerBranchChar = true)
    ∧ (∀ (diff : List Char) (gen : Except Unit (List Char)),
      ((suggest_branch_name diff gen).branch_name ::
        (suggest_branch_name diff gen).alternatives).all
          (fun s => s.all isLowerBranchChar) = true)
    ∧ normalizeBranch (toL "Feature/New Auth!!") = toL "feature/new-auth--" := by
  refine ⟨normalizeBranch_all, ?_, by decide⟩
  intro diff gen
  unfold suggest_branch_name
  by_cases h : strip diff = []
  · rw [if_pos h]
    decide
  · rw [if_neg h]
    cases gen with
    | error e =>
      cases e
      decide
    | ok raw =>
      rw [List.all_cons]
      refine Bool.and_eq_true_iff.mpr ⟨normalizeBranch_all _, ?_⟩
      rw [List.all_eq_true]
      intro x hx
      have hx2 := List.take_subset 3 _ hx
      obtain ⟨y, _, rfl⟩ := List.mem_map.mp hx2
      exact normalizeBranch_all y

/-- C9 counterexample: the claim fails as stated for the `run_cli` flow of
the backend (one of its two cited code paths): choosing `edit` and supplying
the empty replacement there invokes the commit operation with the empty
message instead of refusing it. -/
theorem c9_counterexample :
    (run_cli_decision (toL "edit") (toL "") (toL "Fix")).committed = some (toL "")
    ∧ (run_cli_decision (toL "edit") (toL "") (toL "Fix")).committed ≠ none
    ∧ (run_cli_decision (toL "edit") (toL "") (toL "Fix")).errorReported = false := by
  refine ⟨by decide, by decide, by decide⟩

/-- C9 amended: in the cli-tool's `interactive_commit_flow`, edit with an
empty (after trimming) replacement refuses the commit — nothing is committed
and the error is reported — and any choice other than `y` or `e` commits
nothing; in the backend's `run_cli`, however, the edit branch invokes the
commit operation with the replacement unconditionally (even empty), and any
choice other than `y` or `edit` commits nothing. -/
theorem c9_flow_amended :
    (∀ choice custom msg : List Char,
      strip (pyLower choice) = toL "e" → strip custom = [] →
      interactive_commit_decision choice custom msg =
        { committed := none, errorReported := true })
    ∧ (∀ choice custom msg : List Char,
      strip (pyLower choice) ≠ toL "y" → strip (pyLower choice) ≠ toL "e" →
      (interactive_commit_decision choice custom msg).committed = none)
    ∧ (∀ custom msg : List Char,
      run_cli_decision (toL "edit") custom msg =
        { committed := some custom, errorReported := false })
    ∧ (∀ u custom msg : List Char,
      pyLower u ≠ toL "y" → pyLower u ≠ toL "edit" →
      (run_cli_decision u custom msg).committed = none) := by
  refine ⟨?_, ?_, ?_, ?_⟩
  · intro choice custom msg h1 h2
    unfold interactive_commit_decision
    rw [h1]
    rw [if_neg (by decide : ¬(toL "e" = toL "y")), if_pos rfl, h2]
    rw [if_neg (by simp)]
  · intro choice custom msg h1 h2
    unfold interactive_commit_decision
    rw [if_neg h1, if_neg h2]
    by_cases h3 : strip (pyLower choice) = toL "q"
    · rw [if_pos h3]
    · rw [if_neg h3]
  · intro custom msg
    rfl
  · intro u custom msg h1 h2
    unfold run_cli_decision
    rw [if_neg h1, if_neg h2]

/-- C9 amended witness: an uppercase padded `E ` choice with a blank
replacement is refused with an error; `n` commits nothing; `run_cli` with
`edit` and the empty replacement invokes the commit with it; `q` commits
nothing. -/
theorem c9_flow_amended_witness :
    interactive_commit_decision (toL "E ") (toL "  ") (toL "Fix") =
      { committed := none, errorReported := true }
    ∧ (interactive_commit_decision (toL "n") (toL "m") (toL "Fix")).committed = none
    ∧ run_cli_decision (toL "edit") (toL "") (toL "Fix") =
      { committed := some (toL ""), errorReported := false }
    ∧ (run_cli_decision (toL "q") (toL "m") (toL "Fix")).committed = none :=
  ⟨c9_flow_amended.1 (toL "E ") (toL "  ") (toL "Fix") (by decide) (by decide),
   c9_flow_amended.2.1 (toL "n") (toL "m") (toL "Fix") (by decide) (by decide),
   c9_flow_amended.2.2.1 (toL "") (toL "Fix"),
   c9_flow_amended.2.2.2 (toL "q") (toL "m") (toL "Fix") (by decide) (by decide)⟩

/-- C4: the alternatives parsing splits the reply into lines, strips from
each a leading marker that always has the digits / optional-period /
optional-whitespace form (so a `2)`-style marker is never matched as a
whole), trims, keeps a line only when non-empty and at most 50 characters
(over-long lines are dropped whole), and collects at most `count` lines in
source order; in particular the three-line reply of the claim yields exactly
`Add tests` and `Fix typo`. -/
theorem c4_alternatives_parsing :
    (∀ (reply : List Char) (count : Nat),
      parseAlternatives reply count =
        (((splitOn '\n' (strip reply)).map fun l => strip (stripOrdinal l)).filter
          fun l => decide (l ≠ [] ∧ l.length ≤ 50)).take count)
    ∧ (∀ l : List Char, ∃ ds dot ws, l = ds ++ (dot ++ (ws ++ stripOrdinal l))
        ∧ (∀ c ∈ ds, isDigitC c = true) ∧ (dot = [] ∨ dot = ['.'])
        ∧ (∀ c ∈ ws, pyWS c = true) ∧ (ds = [] → stripOrdinal l = l))
    ∧ parseAlternatives
        (toL "1. Add tests\n2. Fix typo\n3. This line is way too long and exceeds the fifty character cutoff limit\n")
        3
      = [toL "Add tests", toL "Fix typo"] := by
  refine ⟨?_, stripOrdinal_shape, by decide⟩
  intro reply count
  unfold parseAlternatives
  rw [foldl_altStep, List.nil_append]

/-- C10: feeding three already-trimmed, newline-free field values back
through the pull-request parser in its own canonical
`Summary:` / `Impact:` / `Testing:` line format reproduces exactly the same
three fields. -/
theorem c10_pr_idempotent :
    ∀ (bn diff s i t : List Char),
      strip diff ≠ [] → strip s = s → strip i = i → strip t = t →
      '\n' ∉ s → '\n' ∉ i → '\n' ∉ t →
      summarize_pull_request bn diff
        (.ok ((toL "Summary: " ++ s) ++ ('\n' ::
          ((toL "Impact: " ++ i) ++ ('\n' :: (toL "Testing: " ++ t)))))) =
        { summary := s, impact := i, testing_notes := t } := by
  intro bn diff s i t hd hs hi ht hns hni hnt
  have hns1 : '\n' ∉ toL "Summary: " ++ s := by
    intro hmem
    rcases List.mem_append.mp hmem with h | h
    · exact absurd h (by decide)
    · exact hns h
  have hns2 : '\n' ∉ toL "Impact: " ++ i := by
    intro hmem
    rcases List.mem_append.mp hmem with h | h
    · exact absurd h (by decide)
    · exact hni h
  have hns3 : '\n' ∉ toL "Testing: " ++ t := by
    intro hmem
    rcases List.mem_append.mp hmem with h | h
    · exact absurd h (by decide)
    · exact hnt h
  have main : ∀ l3 : List Char, isPre (toL "Summary:") l3 = false →
      isPre (toL "Impact:") l3 = false → isPre (toL "Testing:") l3 = true →
      strip (l3.drop (toL "Testing:").length) = t →
      prFold [toL "Summary: " ++ s, toL "Impact: " ++ i, l3] =
        { summary := s, impact := i, testing_notes := t } := by
    intro l3 e1 e2 e3 e4
    unfold prFold
    rw [foldl_prStep_eq]
    simp only [PRResult.mk.injEq]
    refine ⟨?_, ?_, ?_⟩
    · unfold prFieldSpec
      rw [show ([toL "Summary: " ++ s, toL "Impact: " ++ i, l3]).reverse
          = [l3, toL "Impact: " ++ i, toL "Summary: " ++ s] from by simp]
      rw [List.find?_cons_of_neg _ (by simp [e1])]
      rw [List.find?_cons_of_neg _ (by simp
        [show isPre (toL "Summary:") (toL "Impact: " ++ i) = false from rfl])]
      rw [List.find?_cons_of_pos _
        (show isPre (toL "Summary:") (toL "Summary: " ++ s) = true from rfl)]
      show strip ((toL "Summary: " ++ s).drop (toL "Summary:").length) = s
      rw [show (toL "Summary: " ++ s).drop (toL "Summary:").length = ' ' :: s from rfl]
      exact strip_space_cons s hs
    · unfold prFieldSpec
      rw [show ([toL "Summary: " ++ s, toL "Impact: " ++ i, l3]).reverse
          = [l3, toL "Impact: " ++ i, toL "Summary: " ++ s] from by simp]
      rw [List.find?_cons_of_neg _ (by simp [e2])]
      rw [List.find?_cons_of_pos _
        (show isPre (toL "Impact:") (toL "Impact: " ++ i) = true from rfl)]
      show strip ((toL "Impact: " ++ i).drop (toL "Impact:").length) = i
      rw [show (toL "Impact: " ++ i).drop (toL "Impact:").length = ' ' :: i from rfl]
      exact strip_space_cons i hi
    · unfold prFieldSpec
      rw [show ([toL "Summary: " ++ s, toL "Impact: " ++ i, l3]).reverse
          = [l3, toL "Impact: " ++ i, toL "Summary: " ++ s] from by simp]
      rw [List.find?_cons_of_pos _ e3]
      exact e4
  rw [summarize_pull_request_ok bn diff _ hd]
  have hl : lstrip ((toL "Summary: " ++ s) ++ ('\n' ::
        ((toL "Impact: " ++ i) ++ ('\n' :: (toL "Testing: " ++ t)))))
      = (toL "Summary: " ++ s) ++ ('\n' ::
        ((toL "Impact: " ++ i) ++ ('\n' :: (toL "Testing: " ++ t)))) :=
    @lstrip_cons_not_ws 'S' ((toL "ummary: " ++ s) ++ ('\n' ::
      ((toL "Impact: " ++ i) ++ ('\n' :: (toL "Testing: " ++ t))))) (by decide)
  by_cases ht0 : t = []
  · subst ht0
    have hc1 : (toL "Summary: " ++ s) ++ ('\n' ::
          ((toL "Impact: " ++ i) ++ ('\n' :: (toL "Testing: " ++ ([] : List Char)))))
        = ((toL "Summary: " ++ s) ++ ('\n' ::
          ((toL "Impact: " ++ i) ++ ('\n' :: ([] : List Char)))))
          ++ (toL "Testing:" ++ [' ']) := by
      rw [show toL "Testing:" ++ [' '] = toL "Testing: " from by decide]
      simp
    have hstrip : strip ((toL "Summary: " ++ s) ++ ('\n' ::
          ((toL "Impact: " ++ i) ++ ('\n' :: (toL "Testing: " ++ ([] : List Char))))))
        = ((toL "Summary: " ++ s) ++ ('\n' ::
          ((toL "Impact: " ++ i) ++ ('\n' :: ([] : List Char))))) ++ toL "Testing:" := by
      unfold strip
      rw [hl, hc1]
      exact rstrip_append_ws _ (toL "Testing:") [' '] (by decide) (by decide)
        (by intro c hc; rw [List.mem_singleton] at hc; subst hc; rfl)
    rw [hstrip]
    rw [show ((toL "Summary: " ++ s) ++ ('\n' ::
          ((toL "Impact: " ++ i) ++ ('\n' :: ([] : List Char))))) ++ toL "Testing:"
        = (toL "Summary: " ++ s) ++ ('\n' ::
          ((toL "Impact: " ++ i) ++ ('\n' :: toL "Testing:"))) from by simp]
    rw [splitOn_append_sep '\n' _ _ hns1, splitOn_append_sep '\n' _ _ hns2,
      splitOn_no_sep '\n' (toL "Testing:") (by decide)]
    exact main (toL "Testing:") rfl rfl rfl rfl
  · have hrt : rstrip t = t := rstrip_eq_of_strip_eq ht
    have hc1 : (toL "Summary: " ++ s) ++ ('\n' ::
          ((toL "Impact: " ++ i) ++ ('\n' :: (toL "Testing: " ++ t))))
        = ((toL "Summary: " ++ s) ++ ('\n' ::
          ((toL "Impact: " ++ i) ++ ('\n' :: toL "Testing: ")))) ++ (t ++ []) := by
      simp
    have hstrip : strip ((toL "Summary: " ++ s) ++ ('\n' ::
          ((toL "Impact: " ++ i) ++ ('\n' :: (toL "Testing: " ++ t)))))
        = (toL "Summary: " ++ s) ++ ('\n' ::
          ((toL "Impact: " ++ i) ++ ('\n' :: (toL "Testing: " ++ t)))) := by
      unfold strip
      rw [hl, hc1]
      rw [rstrip_append_ws _ t [] hrt ht0 (by intro c hc; exact absurd hc (List.not_mem_nil c))]
      simp
    rw [hstrip]
    rw [splitOn_append_sep '\n' _ _ hns1, splitOn_append_sep '\n' _ _ hns2,
      splitOn_no_sep '\n' (toL "Testing: " ++ t) hns3]
    refine main (toL "Testing: " ++ t) rfl rfl rfl ?_
    rw [show (toL "Testing: " ++ t).drop (toL "Testing:").length = ' ' :: t from rfl]
    exact strip_space_cons t ht

/-- C10 witness at concrete field values. -/
theorem c10_pr_idempotent_witness :
    summarize_pull_request (toL "b") (toL "d")
      (.ok ((toL "Summary: " ++ toL "Adds auth") ++ ('\n' ::
        ((toL "Impact: " ++ toL "High") ++ ('\n' :: (toL "Testing: " ++ toL "Run unit tests")))))) =
      { summary := toL "Adds auth", impact := toL "High",
        testing_notes := toL "Run unit tests" } :=
  c10_pr_idempotent (toL "b") (toL "d") (toL "Adds auth") (toL "High") (toL "Run unit tests")
    (by decide) (by decide) (by decide) (by decide) (by decide) (by decide) (by decide)
